import Mathlib

/-!
# Verification of the `bevy_time` clock model

A shallow embedding of `src/crates/bevy_time/src/time.rs` (the `Time`
resource of the `nakedible/bevy` fork) together with the `Clock` value type
it builds on.

Modelling conventions:

* `Duration` and `Instant` are nanosecond counts, embedded as `Nat`.
  Rust `Duration` arithmetic on the paths used here never overflows `u64`
  seconds in practice, and `Instant` subtraction saturates at zero
  (`Instant::duration_since` saturates), which `Nat` subtraction matches.
* `f32`/`f64` second values and the `relative_speed` multiplier are
  embedded as exact rationals (`ℚ`).  `Duration::mul_f64` is modelled as
  exact rational scaling rounded to the nearest nanosecond
  (`Duration.mulF64`).
* Operations that panic in Rust (`set_wrap_period`,
  `set_relative_speed_f64`) return `Option Time`, `none` standing for the
  panic.
-/

namespace BevyTime

/-- Nanoseconds in one second; `Duration` values are nanosecond counts. -/
def nanosPerSec : Nat := 1000000000

/-- Seconds view of a nanosecond count, as an exact rational (the model of
the `as_secs_f32` / `as_secs_f64` conversions). -/
def secsOf (d : Nat) : ℚ := (d : ℚ) / (nanosPerSec : ℚ)

/-- Model of `Duration::mul_f64`: scale a nanosecond count by a rational
multiplier and round to the nearest nanosecond (clamped below at zero). -/
def Duration.mulF64 (d : Nat) (r : ℚ) : Nat :=
  (round ((d : ℚ) * r)).toNat

/-- Modelled from the spec: the `Clock` value type of `crate::clock`
(`src/crates/bevy_time/src/clock.rs` is not in the sources; only its use
sites in `time.rs` are).  Per spec §3/§4.1 it stores the last increment,
the running elapsed total, the wrapped (modulo) view of elapsed, the
derived seconds fields for each, and the wrap modulus in whole seconds. -/
structure Clock where
  delta : Nat
  delta_seconds : ℚ
  delta_seconds_f64 : ℚ
  elapsed : Nat
  elapsed_seconds : ℚ
  elapsed_seconds_f64 : ℚ
  elapsed_wrapped : Nat
  elapsed_seconds_wrapped : ℚ
  elapsed_seconds_wrapped_f64 : ℚ
  wrap_seconds : Nat
deriving DecidableEq

/-- Modelled from the spec: `Clock::new(wrap_seconds)` — a fresh clock with
all counters zero and the given wrap modulus (used by `Time`'s
constructor, which passes 3600). -/
def Clock.new (wrap : Nat) : Clock where
  delta := 0
  delta_seconds := 0
  delta_seconds_f64 := 0
  elapsed := 0
  elapsed_seconds := 0
  elapsed_seconds_f64 := 0
  elapsed_wrapped := 0
  elapsed_seconds_wrapped := 0
  elapsed_seconds_wrapped_f64 := 0
  wrap_seconds := wrap

/-- Modelled from the spec: `Clock::advance_by(delta)` per §4.1 — record
the increment in the delta fields, add it to `elapsed`, recompute the
wrapped view as `elapsed mod (wrap_seconds seconds)`, and derive every
seconds field from its own duration field. -/
def Clock.advance_by (c : Clock) (delta : Nat) : Clock :=
  let elapsed := c.elapsed + delta
  let wrapped := elapsed % (c.wrap_seconds * nanosPerSec)
  { delta := delta
    delta_seconds := secsOf delta
    delta_seconds_f64 := secsOf delta
    elapsed := elapsed
    elapsed_seconds := secsOf elapsed
    elapsed_seconds_f64 := secsOf elapsed
    elapsed_wrapped := wrapped
    elapsed_seconds_wrapped := secsOf wrapped
    elapsed_seconds_wrapped_f64 := secsOf wrapped
    wrap_seconds := c.wrap_seconds }

/-- The `Time` resource of `time.rs`: startup and update instants, pause
flag, speed multiplier, wrap modulus, optional per-update clamp, the
fixed-step accumulator and period, and the four clocks. -/
structure Time where
  startup : Nat
  first_update : Option Nat
  last_update : Option Nat
  paused : Bool
  relative_speed : ℚ
  wrap_seconds : Nat
  maximum_delta : Option Nat
  fixed_accumulated : Nat
  fixed_period : Nat
  raw_clock : Clock
  virtual_clock : Clock
  fixed_clock : Clock
  current_clock : Clock
deriving DecidableEq

/-- The default fixed-step period: `Duration::from_secs_f32(1. / 60.)`,
i.e. the `f32` nearest 1/60 (8947849/2^29 s) rounded to the nearest
nanosecond. -/
def defaultFixedPeriod : Nat := 16666668

/-- `Time::new(startup)`: the `Default` field values of `time.rs` with the
given startup instant — not paused, speed 1, one-hour wrap modulus,
333 ms `maximum_delta`, empty accumulator, 1/60 s period, four fresh
clocks. -/
def Time.new (startup : Nat) : Time where
  startup := startup
  first_update := none
  last_update := none
  paused := false
  relative_speed := 1
  wrap_seconds := 3600
  maximum_delta := some 333000000
  fixed_accumulated := 0
  fixed_period := defaultFixedPeriod
  raw_clock := Clock.new 3600
  virtual_clock := Clock.new 3600
  fixed_clock := Clock.new 3600
  current_clock := Clock.new 3600

/-- The `scaled_delta` of `Time::update_with_instant`: zero when paused,
the raw delta scaled by `relative_speed` when the speed differs from 1,
and the raw delta unchanged (multiplication skipped) at speed exactly 1. -/
def Time.scaledDelta (t : Time) (raw_delta : Nat) : Nat :=
  if t.paused then 0
  else if t.relative_speed ≠ 1 then Duration.mulF64 raw_delta t.relative_speed
  else raw_delta

/-- The `delta` of `Time::update_with_instant`: the scaled delta clamped
by `maximum_delta` when one is configured. -/
def Time.clampedDelta (t : Time) (scaled_delta : Nat) : Nat :=
  match t.maximum_delta with
  | some maximum_delta => min scaled_delta maximum_delta
  | none => scaled_delta

/-- `Time::update_with_instant(instant)` (`time.rs:122-149`): advance the
raw clock by the raw delta, advance the virtual clock by the scaled and
clamped delta, add that delta to the fixed-step accumulator, on the very
first update re-advance both clocks by zero (suppressing the startup
delta), record the instant, and copy the virtual clock into `current`. -/
def Time.update_with_instant (t : Time) (instant : Nat) : Time :=
  let raw_delta := instant - (t.last_update.getD t.startup)
  let delta := t.clampedDelta (t.scaledDelta raw_delta)
  let rawC := t.raw_clock.advance_by raw_delta
  let virtC := t.virtual_clock.advance_by delta
  let rawC := if t.last_update = none then rawC.advance_by 0 else rawC
  let virtC := if t.last_update = none then virtC.advance_by 0 else virtC
  { t with
    first_update := if t.last_update = none then some instant else t.first_update
    last_update := some instant
    fixed_accumulated := t.fixed_accumulated + delta
    raw_clock := rawC
    virtual_clock := virtC
    current_clock := virtC }

/-- `Time::expend_fixed()` (`time.rs:151-163`): when a whole period is
accumulated (`checked_sub` succeeds), consume it, advance the fixed clock
by the period, copy it into `current` and return `true`; otherwise copy
the virtual clock into `current` and return `false`. -/
def Time.expend_fixed (t : Time) : Bool × Time :=
  if t.fixed_period ≤ t.fixed_accumulated then
    let fixedC := t.fixed_clock.advance_by t.fixed_period
    (true, { t with
      fixed_accumulated := t.fixed_accumulated - t.fixed_period
      fixed_clock := fixedC
      current_clock := fixedC })
  else
    (false, { t with current_clock := t.virtual_clock })

/-- `Time::delta()`: the current clock's last increment. -/
def Time.delta (t : Time) : Nat := t.current_clock.delta

/-- `Time::elapsed()`: the current clock's elapsed total. -/
def Time.elapsed (t : Time) : Nat := t.current_clock.elapsed

/-- `Time::elapsed_seconds()` (model: exact rational seconds). -/
def Time.elapsed_seconds (t : Time) : ℚ := t.current_clock.elapsed_seconds

/-- `Time::elapsed_wrapped()`. -/
def Time.elapsed_wrapped (t : Time) : Nat := t.current_clock.elapsed_wrapped

/-- `Time::elapsed_seconds_wrapped()` (model: exact rational seconds). -/
def Time.elapsed_seconds_wrapped (t : Time) : ℚ :=
  t.current_clock.elapsed_seconds_wrapped

/-- `Time::raw_delta()`: the raw clock's last increment. -/
def Time.raw_delta (t : Time) : Nat := t.raw_clock.delta

/-- `Time::raw_elapsed()`: the raw clock's elapsed total. -/
def Time.raw_elapsed (t : Time) : Nat := t.raw_clock.elapsed

/-- `Time::wrap_period()`: `Duration::from_secs(wrap_seconds)`. -/
def Time.wrap_period (t : Time) : Nat := t.wrap_seconds * nanosPerSec

/-- `Time::relative_speed_f64()`: zero while paused, the stored multiplier
otherwise. -/
def Time.relative_speed_f64 (t : Time) : ℚ :=
  if t.paused then 0 else t.relative_speed

/-- `Time::is_paused()`. -/
def Time.is_paused (t : Time) : Bool := t.paused

/-- `Time::set_wrap_period(period)` (`time.rs:335-342`): panics (`none`)
on a zero period or on one with a sub-second remainder; otherwise stores
the whole-second modulus and propagates it to the raw, virtual and fixed
clocks — not to `current_clock`. -/
def Time.set_wrap_period (t : Time) (wrap_period : Nat) : Option Time :=
  if wrap_period = 0 then none
  else if wrap_period % nanosPerSec ≠ 0 then none
  else
    let w := wrap_period / nanosPerSec
    some { t with
      wrap_seconds := w
      raw_clock := { t.raw_clock with wrap_seconds := w }
      virtual_clock := { t.virtual_clock with wrap_seconds := w }
      fixed_clock := { t.fixed_clock with wrap_seconds := w } }

/-- `Time::set_relative_speed_f64(ratio)`: panics (`none`) on a negative
ratio (non-finiteness has no rational counterpart); otherwise stores it. -/
def Time.set_relative_speed_f64 (t : Time) (ratio : ℚ) : Option Time :=
  if 0 ≤ ratio then some { t with relative_speed := ratio } else none

/-- `Time::pause()`. -/
def Time.pause (t : Time) : Time := { t with paused := true }

/-- `Time::unpause()`. -/
def Time.unpause (t : Time) : Time := { t with paused := false }

/-- The mutating operations of the public `Time` interface, for stating
properties over arbitrary operation sequences. -/
inductive Op where
  | update (instant : Nat)
  | expendFixed
  | setWrapPeriod (wrap_period : Nat)
  | setRelativeSpeed (ratio : ℚ)
  | pause
  | unpause

/-- Apply one operation; `none` models a panic in a setter. -/
def applyOp (t : Time) : Op → Option Time
  | .update instant => some (t.update_with_instant instant)
  | .expendFixed => some (t.expend_fixed).2
  | .setWrapPeriod p => t.set_wrap_period p
  | .setRelativeSpeed r => t.set_relative_speed_f64 r
  | .pause => some t.pause
  | .unpause => some t.unpause

/-- Run a sequence of operations from a state. -/
def runOps (t : Time) : List Op → Option Time
  | [] => some t
  | op :: ops =>
    match applyOp t op with
    | some t2 => runOps t2 ops
    | none => none

/-- The host's fixed-step drain loop: call `expend_fixed` until it returns
`false` (§4.4).  The `0 < fixed_period` conjunct in the guard makes the
recursion well-founded; a zero period never arises (the default is 1/60 s
and no mutator changes the period), and in that degenerate case the real
loop would not terminate at all. -/
def drainFixed (t : Time) : Time :=
  if _h : 0 < t.fixed_period ∧ t.fixed_period ≤ t.fixed_accumulated then
    drainFixed (t.expend_fixed).2
  else
    (t.expend_fixed).2
termination_by t.fixed_accumulated
decreasing_by
  simp only [Time.expend_fixed, if_pos _h.2]
  omega

/-- A clock with its wrap modulus erased — the equivalence used to compare
clock snapshots up to the `wrap_seconds` configuration field. -/
def Clock.stripWrap (c : Clock) : Clock := { c with wrap_seconds := 0 }

/-- The `current_clock` invariant, stated up to the wrap modulus: the
current snapshot agrees with the virtual or the fixed clock on every
counter field. -/
def currentTracks (t : Time) : Prop :=
  t.current_clock.stripWrap = t.virtual_clock.stripWrap ∨
    t.current_clock.stripWrap = t.fixed_clock.stripWrap

/-- The raw, virtual and fixed clocks always carry the same wrap modulus. -/
def clocksShareWrap (t : Time) : Prop :=
  t.raw_clock.wrap_seconds = t.virtual_clock.wrap_seconds ∧
    t.raw_clock.wrap_seconds = t.fixed_clock.wrap_seconds

/-! ## Helper lemmas -/

theorem wrap_seconds_advance_by (c : Clock) (d : Nat) :
    (c.advance_by d).wrap_seconds = c.wrap_seconds := rfl

theorem elapsed_advance_by (c : Clock) (d : Nat) :
    (c.advance_by d).elapsed = c.elapsed + d := rfl

theorem stripWrap_mk_wrap (c : Clock) (w : Nat) :
    ({ c with wrap_seconds := w } : Clock).stripWrap = c.stripWrap := rfl

theorem Clock.eq_of_stripWrap {a b : Clock}
    (h : a.stripWrap = b.stripWrap) (hw : a.wrap_seconds = b.wrap_seconds) :
    a = b := by
  cases a
  cases b
  simp only [Clock.stripWrap, Clock.mk.injEq] at h ⊢
  simp_all

theorem mulF64_one (d : Nat) : Duration.mulF64 d 1 = d := by
  simp [Duration.mulF64]

theorem expend_snd_fixed_period (t : Time) :
    (t.expend_fixed).2.fixed_period = t.fixed_period := by
  unfold Time.expend_fixed
  split <;> rfl

theorem expend_snd_acc_of_le {t : Time} (h : t.fixed_period ≤ t.fixed_accumulated) :
    (t.expend_fixed).2.fixed_accumulated = t.fixed_accumulated - t.fixed_period := by
  unfold Time.expend_fixed
  rw [if_pos h]

theorem expend_snd_elapsed_of_le {t : Time} (h : t.fixed_period ≤ t.fixed_accumulated) :
    (t.expend_fixed).2.fixed_clock.elapsed = t.fixed_clock.elapsed + t.fixed_period := by
  unfold Time.expend_fixed
  rw [if_pos h]
  rfl

theorem expend_snd_acc_of_lt {t : Time} (h : t.fixed_accumulated < t.fixed_period) :
    (t.expend_fixed).2.fixed_accumulated = t.fixed_accumulated := by
  unfold Time.expend_fixed
  rw [if_neg (Nat.not_le.mpr h)]

theorem expend_snd_fixed_clock_of_lt {t : Time} (h : t.fixed_accumulated < t.fixed_period) :
    (t.expend_fixed).2.fixed_clock = t.fixed_clock := by
  unfold Time.expend_fixed
  rw [if_neg (Nat.not_le.mpr h)]

/-! ## Claim theorems -/

/-- C1 (counterexample): the claim's first-tick equation
`elapsed() = T1 − T0` fails for an arbitrary `T1 > T0` under the default
configuration — at `T0 = 0`, `T1 = 1 s` the default 333 ms `maximum_delta`
clamps the virtual advance, so `elapsed()` is 333 ms, not 1 s. -/
theorem first_tick_zeroing_counterexample :
    (0 : Nat) < 1000000000 ∧
      Time.elapsed ((Time.new 0).update_with_instant 1000000000) ≠ 1000000000 - 0 := by
  decide

/-- C1 (amended): for a `Time` with startup `T0` in the default
configuration, after a first update at `T1` with `T0 < T1` and
`T1 − T0` at most the default 333 ms `maximum_delta`, `delta()` is zero
and `elapsed()` is exactly `T1 − T0`; after a second update at `T2` with
`T2 − T1` also within the clamp, `delta()` equals the gap `T2 − T1`. -/
theorem first_tick_zeroing (T0 T1 T2 : Nat)
    (_h01 : T0 < T1) (hc1 : T1 - T0 ≤ 333000000) (hc2 : T2 - T1 ≤ 333000000) :
    Time.delta ((Time.new T0).update_with_instant T1) = 0 ∧
    Time.elapsed ((Time.new T0).update_with_instant T1) = T1 - T0 ∧
    Time.delta (((Time.new T0).update_with_instant T1).update_with_instant T2)
      = T2 - T1 := by
  refine ⟨?_, ?_, ?_⟩
  · simp [Time.new, Time.update_with_instant, Time.scaledDelta, Time.clampedDelta,
      Clock.advance_by, Time.delta]
  · simp [Time.new, Time.update_with_instant, Time.scaledDelta, Time.clampedDelta,
      Clock.advance_by, Clock.new, Time.elapsed, Nat.min_eq_left hc1]
  · simp [Time.new, Time.update_with_instant, Time.scaledDelta, Time.clampedDelta,
      Clock.advance_by, Time.delta, Nat.min_eq_left hc2]

/-- C1 (witness): the amended first-tick property at `T0 = 0`, `T1 = 100`,
`T2 = 250`. -/
theorem first_tick_zeroing_witness :
    Time.delta ((Time.new 0).update_with_instant 100) = 0 ∧
    Time.elapsed ((Time.new 0).update_with_instant 100) = 100 - 0 ∧
    Time.delta (((Time.new 0).update_with_instant 100).update_with_instant 250)
      = 250 - 100 :=
  first_tick_zeroing 0 100 250 (by decide) (by decide) (by decide)

/-- C4: single-call contract of `expend_fixed` — with a whole period
accumulated it consumes one period, advances the fixed clock by exactly
`fixed_period`, copies it into `current_clock` and returns `true`;
otherwise it leaves the accumulator and the fixed clock untouched, copies
the virtual clock into `current_clock` and returns `false`. -/
theorem expend_fixed_contract (t : Time) :
    (t.fixed_period ≤ t.fixed_accumulated →
      (t.expend_fixed).1 = true ∧
      (t.expend_fixed).2.fixed_accumulated = t.fixed_accumulated - t.fixed_period ∧
      (t.expend_fixed).2.fixed_clock.delta = t.fixed_period ∧
      (t.expend_fixed).2.fixed_clock.elapsed = t.fixed_clock.elapsed + t.fixed_period ∧
      (t.expend_fixed).2.current_clock = (t.expend_fixed).2.fixed_clock) ∧
    (t.fixed_accumulated < t.fixed_period →
      (t.expend_fixed).1 = false ∧
      (t.expend_fixed).2.fixed_accumulated = t.fixed_accumulated ∧
      (t.expend_fixed).2.fixed_clock = t.fixed_clock ∧
      (t.expend_fixed).2.current_clock = t.virtual_clock) := by
  constructor
  · intro h
    simp [Time.expend_fixed, if_pos h, Clock.advance_by]
  · intro h
    simp [Time.expend_fixed, if_neg (Nat.not_le.mpr h)]

/-- C4 (witness): both branches of the contract at concrete states — one
with 20 ms accumulated (more than the 1/60 s period), one fresh. -/
theorem expend_fixed_contract_witness :
    (({ Time.new 0 with fixed_accumulated := 20000000 } : Time).expend_fixed).1 = true ∧
    (({ Time.new 0 with fixed_accumulated := 20000000 } : Time).expend_fixed).2.fixed_accumulated
      = ({ Time.new 0 with fixed_accumulated := 20000000 } : Time).fixed_accumulated
        - ({ Time.new 0 with fixed_accumulated := 20000000 } : Time).fixed_period ∧
    (((Time.new 0).expend_fixed).1 = false ∧
      ((Time.new 0).expend_fixed).2.current_clock = (Time.new 0).virtual_clock) :=
  ⟨((expend_fixed_contract { Time.new 0 with fixed_accumulated := 20000000 }).1
      (by decide)).1,
   ((expend_fixed_contract { Time.new 0 with fixed_accumulated := 20000000 }).1
      (by decide)).2.1,
   ((expend_fixed_contract (Time.new 0)).2 (by decide)).1,
   ((expend_fixed_contract (Time.new 0)).2 (by decide)).2.2.2⟩

/-- C5: pause behavior — while paused, any update leaves `delta()` at zero
whatever the raw gap, the pause flag survives the update,
`relative_speed()` reports zero while the stored multiplier is preserved
and reported again after `unpause`, and `raw_elapsed()` still advances by
the full raw delta. -/
theorem pause_behavior (t : Time) (i : Nat) (hp : t.paused = true) :
    Time.delta (t.update_with_instant i) = 0 ∧
    (t.update_with_instant i).paused = true ∧
    Time.relative_speed_f64 t = 0 ∧
    (t.unpause).relative_speed = t.relative_speed ∧
    Time.relative_speed_f64 (t.unpause) = t.relative_speed ∧
    Time.raw_elapsed (t.update_with_instant i)
      = t.raw_elapsed + (i - t.last_update.getD t.startup) := by
  have hsd : ∀ d, t.scaledDelta d = 0 := by
    intro d
    simp [Time.scaledDelta, hp]
  have hcd : t.clampedDelta 0 = 0 := by
    unfold Time.clampedDelta
    cases t.maximum_delta <;> simp
  by_cases hl : t.last_update = none <;>
    simp [Time.update_with_instant, hl, hsd, hcd, Clock.advance_by, Time.delta,
      Time.raw_elapsed, Time.relative_speed_f64, Time.unpause, hp]

/-- C5 (witness): the pause properties at a paused fresh clock updated
1 ms after startup. -/
theorem pause_behavior_witness :
    Time.delta (((Time.new 0).pause).update_with_instant 1000000) = 0 ∧
    (((Time.new 0).pause).update_with_instant 1000000).paused = true ∧
    Time.relative_speed_f64 ((Time.new 0).pause) = 0 ∧
    (((Time.new 0).pause).unpause).relative_speed = ((Time.new 0).pause).relative_speed ∧
    Time.relative_speed_f64 (((Time.new 0).pause).unpause)
      = ((Time.new 0).pause).relative_speed ∧
    Time.raw_elapsed (((Time.new 0).pause).update_with_instant 1000000)
      = Time.raw_elapsed ((Time.new 0).pause)
        + (1000000 - (((Time.new 0).pause).last_update.getD ((Time.new 0).pause).startup)) :=
  pause_behavior ((Time.new 0).pause) 1000000 (by decide)

/-- C6: speed scaling — with the speed fixed at `r`, pause off, a prior
update recorded at `l`, and the clamp not triggered, an update leaves
`delta()` equal to `raw_delta()` scaled by `r` (the model of
`Duration::mul_f64`), the multiplication being skipped at `r = 1` so that
`delta()` then equals `raw_delta()` exactly. -/
theorem speed_scaling (t : Time) (i l : Nat) (r : ℚ)
    (hl : t.last_update = some l)
    (hp : t.paused = false)
    (hr : t.relative_speed = r)
    (hclamp : t.scaledDelta (i - l) ≤ t.maximum_delta.getD (t.scaledDelta (i - l))) :
    Time.raw_delta (t.update_with_instant i) = i - l ∧
    Time.delta (t.update_with_instant i) = Duration.mulF64 (i - l) r ∧
    (r = 1 → Time.delta (t.update_with_instant i) = i - l) := by
  have hclamped : t.clampedDelta (t.scaledDelta (i - l)) = t.scaledDelta (i - l) := by
    unfold Time.clampedDelta
    cases hm : t.maximum_delta with
    | none => rfl
    | some m =>
      rw [hm] at hclamp
      simp only [Option.getD] at hclamp
      exact Nat.min_eq_left hclamp
  have hscaled : t.scaledDelta (i - l) = Duration.mulF64 (i - l) r := by
    unfold Time.scaledDelta
    rw [hp, hr]
    by_cases h1 : r = 1
    · simp [h1, mulF64_one]
    · simp [h1]
  have hdelta : Time.delta (t.update_with_instant i)
      = t.clampedDelta (t.scaledDelta (i - l)) := by
    simp [Time.update_with_instant, hl, Time.delta, Clock.advance_by]
  refine ⟨?_, ?_, ?_⟩
  · simp [Time.update_with_instant, hl, Time.raw_delta, Clock.advance_by]
  · rw [hdelta, hclamped, hscaled]
  · intro h1
    rw [hdelta, hclamped, hscaled, h1, mulF64_one]

/-- C6 (witness): speed scaling at speed 2 on a clock whose last update
was at 0, updated again at 1 ms. -/
theorem speed_scaling_witness :
    Time.raw_delta (({ Time.new 0 with last_update := some 0, relative_speed := 2 } : Time).update_with_instant
      1000000) = 1000000 - 0 ∧
    Time.delta (({ Time.new 0 with last_update := some 0, relative_speed := 2 } : Time).update_with_instant
      1000000) = Duration.mulF64 (1000000 - 0) 2 ∧
    ((2 : ℚ) = 1 →
      Time.delta (({ Time.new 0 with last_update := some 0, relative_speed := 2 } : Time).update_with_instant
        1000000) = 1000000 - 0) :=
  speed_scaling { Time.new 0 with last_update := some 0, relative_speed := 2 }
    1000000 0 2 (by decide) (by decide) (by decide)
    (by norm_num [Time.scaledDelta, Time.new, Duration.mulF64])

/-- C10: the first-update suppression zeroes only the clocks' deltas, not
the accumulator — on the very first update the clamped scaled delta of the
startup-to-update gap is still added to `fixed_accumulated`, and if the
accumulator thereby reaches `fixed_period`, `expend_fixed` succeeds
immediately after that first update. -/
theorem first_update_accumulates (t : Time) (i : Nat) (hl : t.last_update = none) :
    (t.update_with_instant i).fixed_accumulated
      = t.fixed_accumulated + t.clampedDelta (t.scaledDelta (i - t.startup)) ∧
    Time.delta (t.update_with_instant i) = 0 ∧
    (t.fixed_period ≤ t.fixed_accumulated + t.clampedDelta (t.scaledDelta (i - t.startup)) →
      ((t.update_with_instant i).expend_fixed).1 = true) := by
  refine ⟨?_, ?_, ?_⟩
  · simp [Time.update_with_instant, hl]
  · simp [Time.update_with_instant, hl, Time.delta, Clock.advance_by]
  · intro h
    have hacc : (t.update_with_instant i).fixed_accumulated
        = t.fixed_accumulated + t.clampedDelta (t.scaledDelta (i - t.startup)) := by
      simp [Time.update_with_instant, hl]
    have hper : (t.update_with_instant i).fixed_period = t.fixed_period := by
      simp [Time.update_with_instant]
    simp [Time.expend_fixed, hacc, hper, if_pos h]

/-- C10 (witness): a fresh clock first updated one second after startup
accumulates the clamped 333 ms, which covers a whole 1/60 s period, so
`expend_fixed` returns `true` right away. -/
theorem first_update_accumulates_witness :
    ((Time.new 0).update_with_instant 1000000000).fixed_accumulated
      = (Time.new 0).fixed_accumulated
        + (Time.new 0).clampedDelta ((Time.new 0).scaledDelta (1000000000 - (Time.new 0).startup)) ∧
    Time.delta ((Time.new 0).update_with_instant 1000000000) = 0 ∧
    ((Time.new 0).fixed_period ≤ (Time.new 0).fixed_accumulated
        + (Time.new 0).clampedDelta ((Time.new 0).scaledDelta (1000000000 - (Time.new 0).startup)) →
      (((Time.new 0).update_with_instant 1000000000).expend_fixed).1 = true) :=
  first_update_accumulates (Time.new 0) 1000000000 (by decide)

/-- C3: fixed-step conservation — draining the accumulator by calling
`expend_fixed` until it returns `false` (the total `drainFixed` loop)
leaves `fixed_accumulated` equal to the remainder modulo `fixed_period`
(in particular strictly below the period and, in `Nat`, non-negative),
and advances `fixed_clock` by exactly
`floor(accumulated / period) * period`. -/
theorem fixed_step_conservation (t : Time) (h : 0 < t.fixed_period) :
    (drainFixed t).fixed_accumulated = t.fixed_accumulated % t.fixed_period ∧
    (drainFixed t).fixed_accumulated < t.fixed_period ∧
    (drainFixed t).fixed_clock.elapsed
      = t.fixed_clock.elapsed + t.fixed_accumulated / t.fixed_period * t.fixed_period := by
  revert h
  induction t using drainFixed.induct with
  | case1 t hg ih =>
    intro h
    have hle : t.fixed_period ≤ t.fixed_accumulated := hg.2
    have ih' := ih (by rw [expend_snd_fixed_period]; exact h)
    obtain ⟨ih1, ih2, ih3⟩ := ih'
    simp only [expend_snd_fixed_period, expend_snd_acc_of_le hle,
      expend_snd_elapsed_of_le hle] at ih1 ih2 ih3
    rw [drainFixed.eq_def, dif_pos hg]
    refine ⟨?_, ih2, ?_⟩
    · rw [ih1]
      exact (Nat.mod_eq_sub_mod hle).symm
    · rw [ih3, Nat.div_eq_sub_div h hle]
      ring
  | case2 t hg =>
    intro h
    have hlt : t.fixed_accumulated < t.fixed_period :=
      Nat.not_le.mp fun hc => hg ⟨h, hc⟩
    rw [drainFixed.eq_def, dif_neg hg]
    simp only [expend_snd_acc_of_lt hlt, expend_snd_fixed_clock_of_lt hlt]
    refine ⟨(Nat.mod_eq_of_lt hlt).symm, hlt, ?_⟩
    rw [Nat.div_eq_of_lt hlt]
    ring

/-- C3 (witness): draining a clock holding 40 ms against the default
1/60 s period — two whole periods are consumed and 6666664 ns remain. -/
theorem fixed_step_conservation_witness :
    (drainFixed { Time.new 0 with fixed_accumulated := 40000000 }).fixed_accumulated
      = ({ Time.new 0 with fixed_accumulated := 40000000 } : Time).fixed_accumulated
        % ({ Time.new 0 with fixed_accumulated := 40000000 } : Time).fixed_period ∧
    (drainFixed { Time.new 0 with fixed_accumulated := 40000000 }).fixed_accumulated
      < ({ Time.new 0 with fixed_accumulated := 40000000 } : Time).fixed_period ∧
    (drainFixed { Time.new 0 with fixed_accumulated := 40000000 }).fixed_clock.elapsed
      = ({ Time.new 0 with fixed_accumulated := 40000000 } : Time).fixed_clock.elapsed
        + ({ Time.new 0 with fixed_accumulated := 40000000 } : Time).fixed_accumulated
          / ({ Time.new 0 with fixed_accumulated := 40000000 } : Time).fixed_period
          * ({ Time.new 0 with fixed_accumulated := 40000000 } : Time).fixed_period :=
  fixed_step_conservation { Time.new 0 with fixed_accumulated := 40000000 } (by decide)

/-- C9: `set_wrap_period` halts (`none`) on a zero-length period and on
any period with a sub-second remainder; on success it stores the
whole-second modulus and writes it into the raw, virtual and fixed clocks
while touching nothing else — in particular not `current_clock` and not
any clock's wrapped counters — and an advance of each rewritten clock then
wraps by the new modulus. -/
theorem set_wrap_period_contract (t : Time) (p d : Nat) :
    (p = 0 → t.set_wrap_period p = none) ∧
    (p % nanosPerSec ≠ 0 → t.set_wrap_period p = none) ∧
    (p ≠ 0 → p % nanosPerSec = 0 →
      t.set_wrap_period p = some { t with
        wrap_seconds := p / nanosPerSec
        raw_clock := { t.raw_clock with wrap_seconds := p / nanosPerSec }
        virtual_clock := { t.virtual_clock with wrap_seconds := p / nanosPerSec }
        fixed_clock := { t.fixed_clock with wrap_seconds := p / nanosPerSec } } ∧
      (({ t.raw_clock with wrap_seconds := p / nanosPerSec } : Clock).advance_by d).elapsed_wrapped
        = (t.raw_clock.elapsed + d) % (p / nanosPerSec * nanosPerSec) ∧
      (({ t.virtual_clock with wrap_seconds := p / nanosPerSec } : Clock).advance_by d).elapsed_wrapped
        = (t.virtual_clock.elapsed + d) % (p / nanosPerSec * nanosPerSec) ∧
      (({ t.fixed_clock with wrap_seconds := p / nanosPerSec } : Clock).advance_by d).elapsed_wrapped
        = (t.fixed_clock.elapsed + d) % (p / nanosPerSec * nanosPerSec)) := by
  refine ⟨?_, ?_, ?_⟩
  · intro h
    simp [Time.set_wrap_period, h]
  · intro h
    simp [Time.set_wrap_period, h]
  · intro h0 hs
    refine ⟨?_, rfl, rfl, rfl⟩
    simp [Time.set_wrap_period, h0, hs]

/-- C9 (witness): the contract at a fresh clock — rejection at period 0
and at a 1 ns period, success at a 5 s period followed by a 7 s advance. -/
theorem set_wrap_period_contract_witness :
    ((Time.new 0).set_wrap_period 0 = none) ∧
    ((Time.new 0).set_wrap_period 1 = none) ∧
    ((Time.new 0).set_wrap_period 5000000000 = some { Time.new 0 with
        wrap_seconds := 5000000000 / nanosPerSec
        raw_clock := { (Time.new 0).raw_clock with wrap_seconds := 5000000000 / nanosPerSec }
        virtual_clock := { (Time.new 0).virtual_clock with wrap_seconds := 5000000000 / nanosPerSec }
        fixed_clock := { (Time.new 0).fixed_clock with wrap_seconds := 5000000000 / nanosPerSec } } ∧
      (({ (Time.new 0).raw_clock with wrap_seconds := 5000000000 / nanosPerSec } : Clock).advance_by
          7000000000).elapsed_wrapped
        = ((Time.new 0).raw_clock.elapsed + 7000000000) % (5000000000 / nanosPerSec * nanosPerSec) ∧
      (({ (Time.new 0).virtual_clock with wrap_seconds := 5000000000 / nanosPerSec } : Clock).advance_by
          7000000000).elapsed_wrapped
        = ((Time.new 0).virtual_clock.elapsed + 7000000000) % (5000000000 / nanosPerSec * nanosPerSec) ∧
      (({ (Time.new 0).fixed_clock with wrap_seconds := 5000000000 / nanosPerSec } : Clock).advance_by
          7000000000).elapsed_wrapped
        = ((Time.new 0).fixed_clock.elapsed + 7000000000) % (5000000000 / nanosPerSec * nanosPerSec)) :=
  ⟨(set_wrap_period_contract (Time.new 0) 0 7000000000).1 rfl,
   (set_wrap_period_contract (Time.new 0) 1 7000000000).2.1 (by decide),
   (set_wrap_period_contract (Time.new 0) 5000000000 7000000000).2.2 (by decide) (by decide)⟩

theorem inv_applyOp {t t' : Time} {op : Op}
    (h : applyOp t op = some t')
    (hI : currentTracks t ∧ clocksShareWrap t) :
    currentTracks t' ∧ clocksShareWrap t' := by
  cases op with
  | update i =>
    simp only [applyOp, Option.some.injEq] at h
    subst h
    refine ⟨Or.inl rfl, ?_⟩
    by_cases hl : t.last_update = none <;>
      simp only [Time.update_with_instant, clocksShareWrap, hl, if_pos, if_neg,
        wrap_seconds_advance_by, reduceIte] <;>
      exact hI.2
  | expendFixed =>
    simp only [applyOp, Option.some.injEq] at h
    subst h
    unfold Time.expend_fixed
    split
    · exact ⟨Or.inr rfl, hI.2.1, hI.2.2⟩
    · exact ⟨Or.inl rfl, hI.2.1, hI.2.2⟩
  | setWrapPeriod p =>
    simp only [applyOp] at h
    unfold Time.set_wrap_period at h
    split_ifs at h;
      first
      | exact Option.noConfusion h
      | (simp only [Option.some.injEq] at h
         subst h
         exact ⟨hI.1, rfl, rfl⟩)
  | setRelativeSpeed r =>
    simp only [applyOp] at h
    unfold Time.set_relative_speed_f64 at h
    split_ifs at h;
      first
      | exact Option.noConfusion h
      | (simp only [Option.some.injEq] at h
         subst h
         exact hI)
  | pause =>
    simp only [applyOp, Time.pause, Option.some.injEq] at h
    subst h
    exact hI
  | unpause =>
    simp only [applyOp, Time.unpause, Option.some.injEq] at h
    subst h
    exact hI

theorem inv_runOps (ops : List Op) :
    ∀ {t t' : Time}, runOps t ops = some t' →
      currentTracks t ∧ clocksShareWrap t →
      currentTracks t' ∧ clocksShareWrap t' := by
  induction ops with
  | nil =>
    intro t t' h hI
    simp only [runOps, Option.some.injEq] at h
    subst h
    exact hI
  | cons op ops ih =>
    intro t t' h hI
    unfold runOps at h
    cases happ : applyOp t op with
    | none => rw [happ] at h; exact Option.noConfusion h
    | some t2 =>
      rw [happ] at h
      exact ih h (inv_applyOp happ hI)

/-- C2 (counterexample): the claimed invariant fails as soon as
`set_wrap_period` runs — after `Time::new(0)` followed by
`set_wrap_period(7200 s)`, `current_clock` differs as a value from both
`virtual_clock` and `fixed_clock` (their `wrap_seconds` changed, its
copy's did not). -/
theorem current_clock_tracks_counterexample :
    runOps (Time.new 0) [Op.setWrapPeriod 7200000000000] ≠ none ∧
    ((runOps (Time.new 0) [Op.setWrapPeriod 7200000000000]).getD (Time.new 0)).current_clock
      ≠ ((runOps (Time.new 0) [Op.setWrapPeriod 7200000000000]).getD (Time.new 0)).virtual_clock ∧
    ((runOps (Time.new 0) [Op.setWrapPeriod 7200000000000]).getD (Time.new 0)).current_clock
      ≠ ((runOps (Time.new 0) [Op.setWrapPeriod 7200000000000]).getD (Time.new 0)).fixed_clock := by
  decide

/-- C2 (amended): after every panic-free sequence of operations from
construction, `current_clock` agrees with `virtual_clock` or with
`fixed_clock` on every field except possibly the `wrap_seconds`
configuration (full value equality can be broken only by an intervening
`set_wrap_period`, which rewrites the three track clocks' moduli but not
the current snapshot's); and `current_clock` never equals `raw_clock` when
`raw_clock` differs from both tracks. -/
theorem current_clock_tracks (T0 : Nat) (ops : List Op) (t' : Time)
    (h : runOps (Time.new T0) ops = some t') :
    (t'.current_clock.stripWrap = t'.virtual_clock.stripWrap ∨
      t'.current_clock.stripWrap = t'.fixed_clock.stripWrap) ∧
    (t'.raw_clock ≠ t'.virtual_clock → t'.raw_clock ≠ t'.fixed_clock →
      t'.current_clock ≠ t'.raw_clock) := by
  have hInv : currentTracks t' ∧ clocksShareWrap t' :=
    inv_runOps ops h ⟨Or.inl rfl, rfl, rfl⟩
  refine ⟨hInv.1, ?_⟩
  intro hrv hrf hcr
  rcases hInv.1 with hc | hc
  · rw [hcr] at hc
    exact hrv (Clock.eq_of_stripWrap hc hInv.2.1)
  · rw [hcr] at hc
    exact hrf (Clock.eq_of_stripWrap hc hInv.2.2)

/-- C2 (witness): the amended invariant at a concrete run — an update at
5 ns followed by one `expend_fixed`. -/
theorem current_clock_tracks_witness :
    ((((Time.new 0).update_with_instant 5).expend_fixed).2.current_clock.stripWrap
        = ((((Time.new 0).update_with_instant 5)).expend_fixed).2.virtual_clock.stripWrap ∨
      ((((Time.new 0).update_with_instant 5)).expend_fixed).2.current_clock.stripWrap
        = ((((Time.new 0).update_with_instant 5)).expend_fixed).2.fixed_clock.stripWrap) ∧
    (((((Time.new 0).update_with_instant 5)).expend_fixed).2.raw_clock
        ≠ ((((Time.new 0).update_with_instant 5)).expend_fixed).2.virtual_clock →
      ((((Time.new 0).update_with_instant 5)).expend_fixed).2.raw_clock
        ≠ ((((Time.new 0).update_with_instant 5)).expend_fixed).2.fixed_clock →
      ((((Time.new 0).update_with_instant 5)).expend_fixed).2.current_clock
        ≠ ((((Time.new 0).update_with_instant 5)).expend_fixed).2.raw_clock) :=
  current_clock_tracks 0 [Op.update 5, Op.expendFixed]
    ((((Time.new 0).update_with_instant 5)).expend_fixed).2 rfl

theorem elapsed_mono_applyOp {t t' : Time} {op : Op} (h : applyOp t op = some t') :
    t.raw_clock.elapsed ≤ t'.raw_clock.elapsed ∧
      t.virtual_clock.elapsed ≤ t'.virtual_clock.elapsed := by
  cases op with
  | update i =>
    simp only [applyOp, Option.some.injEq] at h
    subst h
    by_cases hl : t.last_update = none <;>
      simp only [Time.update_with_instant, hl, reduceIte, elapsed_advance_by] <;>
      omega
  | expendFixed =>
    simp only [applyOp, Option.some.injEq] at h
    subst h
    unfold Time.expend_fixed
    split
    · exact ⟨Nat.le_refl _, Nat.le_refl _⟩
    · exact ⟨Nat.le_refl _, Nat.le_refl _⟩
  | setWrapPeriod p =>
    simp only [applyOp] at h
    unfold Time.set_wrap_period at h
    split_ifs at h;
      first
      | exact Option.noConfusion h
      | (simp only [Option.some.injEq] at h
         subst h
         exact ⟨Nat.le_refl _, Nat.le_refl _⟩)
  | setRelativeSpeed r =>
    simp only [applyOp] at h
    unfold Time.set_relative_speed_f64 at h
    split_ifs at h;
      first
      | exact Option.noConfusion h
      | (simp only [Option.some.injEq] at h
         subst h
         exact ⟨Nat.le_refl _, Nat.le_refl _⟩)
  | pause =>
    simp only [applyOp, Time.pause, Option.some.injEq] at h
    subst h
    exact ⟨Nat.le_refl _, Nat.le_refl _⟩
  | unpause =>
    simp only [applyOp, Time.unpause, Option.some.injEq] at h
    subst h
    exact ⟨Nat.le_refl _, Nat.le_refl _⟩

theorem elapsed_mono_runOps (ops : List Op) :
    ∀ {t t' : Time}, runOps t ops = some t' →
      t.raw_clock.elapsed ≤ t'.raw_clock.elapsed ∧
        t.virtual_clock.elapsed ≤ t'.virtual_clock.elapsed := by
  induction ops with
  | nil =>
    intro t t' h
    simp only [runOps, Option.some.injEq] at h
    subst h
    exact ⟨Nat.le_refl _, Nat.le_refl _⟩
  | cons op ops ih =>
    intro t t' h
    unfold runOps at h
    cases happ : applyOp t op with
    | none => rw [happ] at h; exact Option.noConfusion h
    | some t2 =>
      rw [happ] at h
      have h1 := elapsed_mono_applyOp happ
      have h2 := ih h
      exact ⟨Nat.le_trans h1.1 h2.1, Nat.le_trans h1.2 h2.2⟩

theorem current_eq_virtual_after_update (t : Time) (i : Nat) :
    (t.update_with_instant i).current_clock = (t.update_with_instant i).virtual_clock := rfl

theorem runOps_append (l1 l2 : List Op) :
    ∀ t : Time, runOps t (l1 ++ l2) = (runOps t l1).bind fun t2 => runOps t2 l2 := by
  induction l1 with
  | nil => intro t; rfl
  | cons op l ih =>
    intro t
    simp only [List.cons_append, runOps]
    cases happ : applyOp t op with
    | none => rfl
    | some t2 => exact ih t2

/-- C7: monotonic elapsed — along any panic-free run, between any update
and any later update (with arbitrary operations, including pause, unpause
and speed changes, in between), the values read by `elapsed()` and
`raw_elapsed()` are non-decreasing; this holds for every timestamp
sequence, in particular every non-decreasing one. -/
theorem monotonic_elapsed (t : Time) (i : Nat) (ops : List Op) (j : Nat) (t' : Time)
    (h : runOps (t.update_with_instant i) (ops ++ [Op.update j]) = some t') :
    Time.elapsed (t.update_with_instant i) ≤ Time.elapsed t' ∧
    Time.raw_elapsed (t.update_with_instant i) ≤ Time.raw_elapsed t' := by
  have hraw := (elapsed_mono_runOps (ops ++ [Op.update j]) h).1
  rw [runOps_append] at h
  cases hmid : runOps (t.update_with_instant i) ops with
  | none => rw [hmid] at h; exact Option.noConfusion h
  | some t2 =>
    rw [hmid] at h
    simp only [Option.bind, runOps, applyOp, Option.some.injEq] at h
    subst h
    refine ⟨?_, hraw⟩
    show (t.update_with_instant i).current_clock.elapsed
      ≤ (t2.update_with_instant j).current_clock.elapsed
    rw [current_eq_virtual_after_update, current_eq_virtual_after_update]
    have hstep : applyOp t2 (Op.update j) = some (t2.update_with_instant j) := rfl
    exact Nat.le_trans (elapsed_mono_runOps ops hmid).2 (elapsed_mono_applyOp hstep).2

/-- C7 (witness): elapsed readings at two updates (5 ns then 20 ns) with a
pause in between. -/
theorem monotonic_elapsed_witness :
    Time.elapsed ((Time.new 0).update_with_instant 5)
      ≤ Time.elapsed ((((Time.new 0).update_with_instant 5).pause).update_with_instant 20) ∧
    Time.raw_elapsed ((Time.new 0).update_with_instant 5)
      ≤ Time.raw_elapsed ((((Time.new 0).update_with_instant 5).pause).update_with_instant 20) :=
  monotonic_elapsed (Time.new 0) 5 [Op.pause] 20
    ((((Time.new 0).update_with_instant 5).pause).update_with_instant 20) rfl

/-- C8 (code bug evaluation): the claim's (and the repository's own
`wrapping_test`'s) example — wrap period 3 s, first update 1 s after
startup — does not produce wrapped seconds 1.0: the default 333 ms
`maximum_delta` clamps the virtual advance, so both `elapsed_seconds()`
and `elapsed_seconds_wrapped()` read 0.333, while the mod-`W` relation
between them does hold. -/
theorem wrap_correctness_code_bug :
    (Time.new 0).set_wrap_period 3000000000 ≠ none ∧
    Time.elapsed_seconds_wrapped
        (Time.update_with_instant
          (((Time.new 0).set_wrap_period 3000000000).getD (Time.new 0)) 1000000000)
      = 333 / 1000 ∧
    Time.elapsed_seconds
        (Time.update_with_instant
          (((Time.new 0).set_wrap_period 3000000000).getD (Time.new 0)) 1000000000)
      = 333 / 1000 ∧
    (333 / 1000 : ℚ) ≠ 1 := by
  refine ⟨by decide, ?_, ?_, by norm_num⟩ <;>
    · show secsOf 333000000 = 333 / 1000
      norm_num [secsOf, nanosPerSec]

end BevyTime
